import Mathlib

/-!
Shallow embedding of `pysteps/motion/proesmans.py` and of `smart_assert` from
`pysteps/tests/helpers.py`.

Scalars are modelled by `PyFloat`: an exact rational, a signed infinity, or NaN,
with the IEEE-754 rules for the operations the code performs (subtraction,
division, multiplication, minimum, maximum).  NumPy arrays are modelled by
`PArray` (a shape together with row-major flattened data) and the collection of
arrays alive during a call by a heap `List PArray`; allocation appends a cell
and the in-place slice assignments `im[k, :, :] = ...` update a cell, so that
claims about mutation and aliasing of the caller's memory are expressible.
-/

/-- IEEE-754-style scalar as produced by NumPy floating arithmetic: a finite
value (kept exact as a rational), a signed infinity (`inf true` is plus
infinity), or NaN. -/
inductive PyFloat where
  | fin : ℚ → PyFloat
  | inf : Bool → PyFloat
  | nan : PyFloat
  deriving DecidableEq

/-- IEEE subtraction: NaN propagates, infinities of the same sign give NaN. -/
def pfSub : PyFloat → PyFloat → PyFloat
  | PyFloat.nan, _ => PyFloat.nan
  | _, PyFloat.nan => PyFloat.nan
  | PyFloat.fin a, PyFloat.fin b => PyFloat.fin (a - b)
  | PyFloat.inf s, PyFloat.fin _ => PyFloat.inf s
  | PyFloat.fin _, PyFloat.inf s => PyFloat.inf (!s)
  | PyFloat.inf s, PyFloat.inf t => if s = t then PyFloat.nan else PyFloat.inf s

/-- IEEE division: NaN propagates; `0 / 0` is NaN; a nonzero finite numerator
over (positive) zero is a signed infinity; a finite numerator over an infinity
is zero; infinity over infinity is NaN. -/
def pfDiv : PyFloat → PyFloat → PyFloat
  | PyFloat.nan, _ => PyFloat.nan
  | _, PyFloat.nan => PyFloat.nan
  | PyFloat.fin a, PyFloat.fin b =>
      if b = 0 then
        (if a = 0 then PyFloat.nan else PyFloat.inf (decide (0 < a)))
      else PyFloat.fin (a / b)
  | PyFloat.inf s, PyFloat.fin b => PyFloat.inf (s = decide (0 ≤ b))
  | PyFloat.fin _, PyFloat.inf _ => PyFloat.fin 0
  | PyFloat.inf _, PyFloat.inf _ => PyFloat.nan

/-- IEEE multiplication: NaN propagates; infinity times zero is NaN. -/
def pfMul : PyFloat → PyFloat → PyFloat
  | PyFloat.nan, _ => PyFloat.nan
  | _, PyFloat.nan => PyFloat.nan
  | PyFloat.fin a, PyFloat.fin b => PyFloat.fin (a * b)
  | PyFloat.inf s, PyFloat.fin b =>
      if b = 0 then PyFloat.nan else PyFloat.inf (s = decide (0 < b))
  | PyFloat.fin a, PyFloat.inf s =>
      if a = 0 then PyFloat.nan else PyFloat.inf (s = decide (0 < a))
  | PyFloat.inf s, PyFloat.inf t => PyFloat.inf (s = t)

/-- NumPy pairwise minimum as used by the `np.min` reduction: NaN propagates. -/
def pfMin : PyFloat → PyFloat → PyFloat
  | PyFloat.nan, _ => PyFloat.nan
  | _, PyFloat.nan => PyFloat.nan
  | PyFloat.fin a, PyFloat.fin b => PyFloat.fin (min a b)
  | PyFloat.inf s, PyFloat.fin a => if s then PyFloat.fin a else PyFloat.inf false
  | PyFloat.fin a, PyFloat.inf s => if s then PyFloat.fin a else PyFloat.inf false
  | PyFloat.inf s, PyFloat.inf t => PyFloat.inf (s && t)

/-- NumPy pairwise maximum as used by the `np.max` reduction: NaN propagates. -/
def pfMax : PyFloat → PyFloat → PyFloat
  | PyFloat.nan, _ => PyFloat.nan
  | _, PyFloat.nan => PyFloat.nan
  | PyFloat.fin a, PyFloat.fin b => PyFloat.fin (max a b)
  | PyFloat.inf s, PyFloat.fin a => if s then PyFloat.inf true else PyFloat.fin a
  | PyFloat.fin a, PyFloat.inf s => if s then PyFloat.inf true else PyFloat.fin a
  | PyFloat.inf s, PyFloat.inf t => PyFloat.inf (s || t)

/-- A NumPy `ndarray`: its shape and its row-major flattened data. -/
structure PArray where
  shape : List Nat
  data : List PyFloat
  deriving DecidableEq

deriving instance DecidableEq for Except

/-- Python (NumPy) index resolution on an axis of length `n`: a negative index
`i` addresses position `n + i`. -/
def pyIdx (n : Nat) (i : Int) : Nat :=
  if i < 0 then (i + n).toNat else i.toNat

/-- The flattened data of the 2-D slice `a[k, :, :]` of a 3-D array `a`. -/
def frameData (a : PArray) (k : Nat) : List PyFloat :=
  (a.data.drop (k * a.shape.tail.prod)).take a.shape.tail.prod

/-- The in-place slice assignment `a[k, :, :] = d`: replace the `k`-th frame of
the flattened data, keeping the shape. -/
def setFrame (a : PArray) (k : Nat) (d : List PyFloat) : PArray :=
  { shape := a.shape,
    data := a.data.take (k * a.shape.tail.prod) ++ d ++
            a.data.drop ((k + 1) * a.shape.tail.prod) }

/-- Rendering of a shape tuple the way Python `str` renders it. -/
def shapeStr : List Nat → String
  | [] => "()"
  | [n] => "(" ++ toString n ++ ",)"
  | n :: rest => "(" ++ toString n ++ String.join (rest.map (fun m => ", " ++ toString m)) ++ ")"

/-- The message of the `ValueError` raised by the shape validation in
`proesmans`, concatenated exactly as in the source. -/
def dimErrMsg (s : List Nat) : String :=
  "input_images dimension mismatch.\n" ++ "input_images.shape: " ++ shapeStr s ++
    "\n(2, m, n) expected"

/-- The message of the `ValueError` NumPy raises when `np.min` is applied to an
empty array. -/
def reduceErrMsg : String :=
  "zero-size array to reduction operation minimum which has no identity"

/-- The message of the `ValueError` NumPy raises when a slice assignment
receives data of the wrong shape. -/
def broadcastErrMsg : String :=
  "could not broadcast input array into slice shape"

/-- `np.min` reduction over the flattened data (the empty case is unreachable
behind the emptiness check of `normalizeFrames`). -/
def npMinL : List PyFloat → PyFloat
  | [] => PyFloat.nan
  | x :: xs => xs.foldl pfMin x

/-- `np.max` reduction over the flattened data. -/
def npMaxL : List PyFloat → PyFloat
  | [] => PyFloat.nan
  | x :: xs => xs.foldl pfMax x

/-- One pixel of `(im - im_min) / (im_max - im_min) * 255.0`. -/
def normPixel (mn mx v : PyFloat) : PyFloat :=
  pfMul (pfDiv (pfSub v mn) (pfSub mx mn)) (PyFloat.fin 255)

/-- The lines `im_min = np.min(im)`, `im_max = np.max(im)` and
`im = (im - im_min) / (im_max - im_min) * 255.0` of `proesmans`, acting on the
flattened data of the stacked array; `np.min` raises on an empty array. -/
def normalizeFrames (d : List PyFloat) : Except String (List PyFloat) :=
  if d.isEmpty then Except.error reduceErrMsg
  else Except.ok (d.map (normPixel (npMinL d) (npMaxL d)))

/-- `im1 = input_images[-2, :, :].copy()` (the copied values). -/
def im1Data (inp : PArray) : List PyFloat :=
  frameData inp (pyIdx (inp.shape.headD 0) (-2))

/-- `im2 = input_images[-1, :, :].copy()` (the copied values). -/
def im2Data (inp : PArray) : List PyFloat :=
  frameData inp (pyIdx (inp.shape.headD 0) (-1))

/-- The heap after the three allocations `im1 = ...copy()`, `im2 = ...copy()`
and `im = np.stack([im1, im2])`: three fresh arrays appended, the caller's
cells untouched. -/
def heapAfterAllocs (heap : List PArray) (inp : PArray) : List PArray :=
  heap ++ [{ shape := inp.shape.tail, data := im1Data inp },
           { shape := inp.shape.tail, data := im2Data inp },
           { shape := 2 :: inp.shape.tail, data := im1Data inp ++ im2Data inp }]

/-- The fresh array allocated by the normalization line (the name `im` is
rebound to it). -/
def normArrOf (inp : PArray) (nd : List PyFloat) : PArray :=
  { shape := 2 :: inp.shape.tail, data := nd }

/-- Heap after the normalization allocation. -/
def h4Of (heap : List PArray) (inp : PArray) (nd : List PyFloat) : List PArray :=
  heapAfterAllocs heap inp ++ [normArrOf inp nd]

/-- Heap after the in-place write `im[0, :, :] = gaussian_filter(im[0, :, :], filter_std)`. -/
def h5Of (heap : List PArray) (inp : PArray) (nd : List PyFloat) (g0 : List PyFloat) :
    List PArray :=
  (h4Of heap inp nd).set (heapAfterAllocs heap inp).length (setFrame (normArrOf inp nd) 0 g0)

/-- Heap after the in-place write `im[1, :, :] = gaussian_filter(im[1, :, :], filter_std)`. -/
def h6Of (heap : List PArray) (inp : PArray) (nd : List PyFloat) (g0 g1 : List PyFloat) :
    List PArray :=
  (h5Of heap inp nd g0).set (heapAfterAllocs heap inp).length
    (setFrame (setFrame (normArrOf inp nd) 0 g0) 1 g1)

/-- Modelled from the spec: `_compute_advection_field` (module
`pysteps.motion._proesmans`) is imported by the wrapper but its source is not
part of this excerpt.  The spec pins only its interface: it deterministically
returns a dense motion field with two channels (u, v) and the same spatial
shape as the preprocessed input it receives. -/
def computeAdvectionField (im : PArray) (lam num_iter : ℚ) (num_levels : ℤ) : PArray :=
  { shape := im.shape, data := List.replicate im.data.length (PyFloat.fin 0) }

/-- The body of `proesmans` after the shape validation has passed: frame
extraction and copies, stacking, joint normalization, the optional Gaussian
smoothing (in place on the fresh normalized array) and the delegation to the
advection-field routine.  `gauss` and `adv` are the external collaborators
(`scipy.ndimage.gaussian_filter` and `_compute_advection_field`).  The result
is the final heap together with the heap index of the returned array (or the
raised error). -/
def proesmansBody (gauss : List PyFloat → ℚ → List PyFloat)
    (adv : PArray → ℚ → ℚ → ℤ → PArray)
    (heap : List PArray) (inp : PArray)
    (lam num_iter : ℚ) (num_levels : ℤ) (filter_std : ℚ) :
    List PArray × Except String Nat :=
  match normalizeFrames (im1Data inp ++ im2Data inp) with
  | Except.error e => (heapAfterAllocs heap inp, Except.error e)
  | Except.ok nd =>
    if 0 < filter_std then
      let g0 := gauss (frameData (normArrOf inp nd) 0) filter_std
      if g0.length ≠ inp.shape.tail.prod then
        (h4Of heap inp nd, Except.error broadcastErrMsg)
      else
        let g1 := gauss (frameData (setFrame (normArrOf inp nd) 0 g0) 1) filter_std
        if g1.length ≠ inp.shape.tail.prod then
          (h5Of heap inp nd g0, Except.error broadcastErrMsg)
        else
          (h6Of heap inp nd g0 g1 ++
             [adv (setFrame (setFrame (normArrOf inp nd) 0 g0) 1 g1) lam num_iter num_levels],
           Except.ok (h6Of heap inp nd g0 g1).length)
    else
      (h4Of heap inp nd ++ [adv (normArrOf inp nd) lam num_iter num_levels],
       Except.ok (h4Of heap inp nd).length)

/-- `pysteps.motion.proesmans.proesmans`: the caller's array lives at heap
index `inId`; the shape validation is performed first and raises at the
boundary. -/
def proesmans (gauss : List PyFloat → ℚ → List PyFloat)
    (adv : PArray → ℚ → ℚ → ℤ → PArray)
    (heap : List PArray) (inId : Nat)
    (lam num_iter : ℚ) (num_levels : ℤ) (filter_std : ℚ) :
    List PArray × Except String Nat :=
  match heap[inId]? with
  | none => (heap, Except.error "invalid array reference")
  | some inp =>
    if inp.shape.length ≠ 3 ∨ inp.shape.headD 0 ≠ 2 then
      (heap, Except.error (dimErrMsg inp.shape))
    else proesmansBody gauss adv heap inp lam num_iter num_levels filter_std

/-- Written from the spec's words for the pass-through comparison: the same
preprocessing pipeline with the Gaussian smoothing step removed entirely. -/
def proesmansBodyNoSmooth (adv : PArray → ℚ → ℚ → ℤ → PArray)
    (heap : List PArray) (inp : PArray)
    (lam num_iter : ℚ) (num_levels : ℤ) :
    List PArray × Except String Nat :=
  match normalizeFrames (im1Data inp ++ im2Data inp) with
  | Except.error e => (heapAfterAllocs heap inp, Except.error e)
  | Except.ok nd =>
      (h4Of heap inp nd ++ [adv (normArrOf inp nd) lam num_iter num_levels],
       Except.ok (h4Of heap inp nd).length)

/-- Written from the spec's words: `proesmans` with the smoothing step removed. -/
def proesmansNoSmooth (adv : PArray → ℚ → ℚ → ℤ → PArray)
    (heap : List PArray) (inId : Nat)
    (lam num_iter : ℚ) (num_levels : ℤ) :
    List PArray × Except String Nat :=
  match heap[inId]? with
  | none => (heap, Except.error "invalid array reference")
  | some inp =>
    if inp.shape.length ≠ 3 ∨ inp.shape.headD 0 ≠ 2 then
      (heap, Except.error (dimErrMsg inp.shape))
    else proesmansBodyNoSmooth adv heap inp lam num_iter num_levels

/-- Relational version of `proesmansBody` in which the external collaborators
are arbitrary relations (possibly non-deterministic, possibly non-total);
mirrors the control flow of `proesmansBody` exactly. -/
def relBody (G : List PyFloat → ℚ → List PyFloat → Prop)
    (A : PArray → ℚ → ℚ → ℤ → PArray → Prop)
    (heap : List PArray) (inp : PArray)
    (lam num_iter : ℚ) (num_levels : ℤ) (filter_std : ℚ)
    (res : List PArray × Except String Nat) : Prop :=
  match normalizeFrames (im1Data inp ++ im2Data inp) with
  | Except.error e => res = (heapAfterAllocs heap inp, Except.error e)
  | Except.ok nd =>
    if 0 < filter_std then
      ∃ g0, G (frameData (normArrOf inp nd) 0) filter_std g0 ∧
        (if g0.length ≠ inp.shape.tail.prod then
          res = (h4Of heap inp nd, Except.error broadcastErrMsg)
        else
          ∃ g1, G (frameData (setFrame (normArrOf inp nd) 0 g0) 1) filter_std g1 ∧
            (if g1.length ≠ inp.shape.tail.prod then
              res = (h5Of heap inp nd g0, Except.error broadcastErrMsg)
            else
              ∃ out, A (setFrame (setFrame (normArrOf inp nd) 0 g0) 1 g1)
                  lam num_iter num_levels out ∧
                res = (h6Of heap inp nd g0 g1 ++ [out],
                       Except.ok (h6Of heap inp nd g0 g1).length)))
    else
      ∃ out, A (normArrOf inp nd) lam num_iter num_levels out ∧
        res = (h4Of heap inp nd ++ [out], Except.ok (h4Of heap inp nd).length)

/-- Relational version of `proesmans` over relational collaborators. -/
def proesmansRel (G : List PyFloat → ℚ → List PyFloat → Prop)
    (A : PArray → ℚ → ℚ → ℤ → PArray → Prop)
    (heap : List PArray) (inId : Nat)
    (lam num_iter : ℚ) (num_levels : ℤ) (filter_std : ℚ)
    (res : List PArray × Except String Nat) : Prop :=
  match heap[inId]? with
  | none => res = (heap, Except.error "invalid array reference")
  | some inp =>
    if inp.shape.length ≠ 3 ∨ inp.shape.headD 0 ≠ 2 then
      res = (heap, Except.error (dimErrMsg inp.shape))
    else relBody G A heap inp lam num_iter num_levels filter_std res

/-- Joint minimum of a list of rationals (`0` on the unreachable empty list). -/
def listMinQ : List ℚ → ℚ
  | [] => 0
  | x :: xs => xs.foldl min x

/-- Joint maximum of a list of rationals (`0` on the unreachable empty list). -/
def listMaxQ : List ℚ → ℚ
  | [] => 0
  | x :: xs => xs.foldl max x

/-- Python `==` on scalars: NaN compares unequal to everything, including NaN. -/
def pyEq : PyFloat → PyFloat → Bool
  | PyFloat.fin a, PyFloat.fin b => decide (a = b)
  | PyFloat.inf a, PyFloat.inf b => a == b
  | _, _ => false

/-- The tolerance used by `pytest.approx(expected, rel=t, abs=t)`: the maximum
of the relative tolerance `t * |expected|` and the absolute tolerance `t`; a
negative tolerance raises a `ValueError`. -/
def approxTolerance (t : ℚ) (expected : ℚ) : Except String ℚ :=
  if t < 0 then Except.error "absolute tolerance can't be negative"
  else Except.ok (max (t * |expected|) t)

/-- `actual == pytest.approx(expected, rel=t, abs=t, nan_ok=True)` on scalars:
exact equality short-circuits; a NaN expectation accepts exactly a NaN actual
(`nan_ok=True`); an infinite expectation is approximately equal to nothing
else; otherwise the absolute difference is compared against the tolerance. -/
def approxScalarEq (expected actual : PyFloat) (t : ℚ) : Except String Bool :=
  if pyEq actual expected then Except.ok true
  else
    match expected with
    | PyFloat.nan => Except.ok (decide (actual = PyFloat.nan))
    | PyFloat.inf _ => Except.ok false
    | PyFloat.fin e =>
      match approxTolerance t e with
      | Except.error msg => Except.error msg
      | Except.ok tol =>
        match actual with
        | PyFloat.fin qa => Except.ok (decide (|e - qa| ≤ tol))
        | _ => Except.ok false

/-- `pysteps.tests.helpers.smart_assert` on scalar values: `Except.ok true`
models a passing assertion, `Except.ok false` an `AssertionError`, and
`Except.error` a `ValueError` escaping from `pytest.approx`. -/
def smart_assert (actual_value expected : PyFloat) (tolerance : Option ℚ) :
    Except String Bool :=
  match tolerance with
  | none => Except.ok (pyEq actual_value expected)
  | some t => approxScalarEq expected actual_value t

/-! ### Structural lemmas about the heap evolution -/

theorem set_concat_length {α : Type} (l : List α) (a b : α) :
    (l ++ [b]).set l.length a = l ++ [a] := by
  induction l with
  | nil => rfl
  | cons x t ih => simp only [List.cons_append, List.length_cons, List.set_cons_succ, ih]

theorem heapAfterAllocs_length (heap : List PArray) (inp : PArray) :
    (heapAfterAllocs heap inp).length = heap.length + 3 := by
  simp [heapAfterAllocs]

theorem h5Of_eq (heap : List PArray) (inp : PArray) (nd g0 : List PyFloat) :
    h5Of heap inp nd g0 = heapAfterAllocs heap inp ++ [setFrame (normArrOf inp nd) 0 g0] := by
  unfold h5Of h4Of
  exact set_concat_length _ _ _

theorem h6Of_eq (heap : List PArray) (inp : PArray) (nd g0 g1 : List PyFloat) :
    h6Of heap inp nd g0 g1 =
      heapAfterAllocs heap inp ++ [setFrame (setFrame (normArrOf inp nd) 0 g0) 1 g1] := by
  unfold h6Of
  rw [h5Of_eq]
  exact set_concat_length _ _ _

theorem proesmansBody_split (gauss : List PyFloat → ℚ → List PyFloat)
    (adv : PArray → ℚ → ℚ → ℤ → PArray)
    (heap : List PArray) (inp : PArray)
    (lam num_iter : ℚ) (num_levels : ℤ) (filter_std : ℚ) :
    ∃ t, (proesmansBody gauss adv heap inp lam num_iter num_levels filter_std).1 =
        heapAfterAllocs heap inp ++ t ∧
      ∀ rid, (proesmansBody gauss adv heap inp lam num_iter num_levels filter_std).2 =
          Except.ok rid → rid = heap.length + 4 := by
  unfold proesmansBody
  cases hnf : normalizeFrames (im1Data inp ++ im2Data inp) with
  | error e => exact ⟨[], by simp, by simp⟩
  | ok nd =>
    by_cases hfs : 0 < filter_std
    · simp only [if_pos hfs]
      set g0 := gauss (frameData (normArrOf inp nd) 0) filter_std with hg0
      by_cases h0 : g0.length ≠ inp.shape.tail.prod
      · simp only [if_pos h0]
        exact ⟨[normArrOf inp nd], by simp [h4Of], by simp⟩
      · simp only [if_neg h0]
        set g1 := gauss (frameData (setFrame (normArrOf inp nd) 0 g0) 1) filter_std with hg1
        by_cases h1 : g1.length ≠ inp.shape.tail.prod
        · simp only [if_pos h1]
          exact ⟨[setFrame (normArrOf inp nd) 0 g0], by simp [h5Of_eq], by simp⟩
        · simp only [if_neg h1]
          refine ⟨[setFrame (setFrame (normArrOf inp nd) 0 g0) 1 g1,
                   adv (setFrame (setFrame (normArrOf inp nd) 0 g0) 1 g1) lam num_iter num_levels],
                  by simp [h6Of_eq], ?_⟩
          intro rid hr
          simp only [Except.ok.injEq] at hr
          subst hr
          simp [h6Of_eq, heapAfterAllocs]
    · simp only [if_neg hfs]
      refine ⟨[normArrOf inp nd, adv (normArrOf inp nd) lam num_iter num_levels],
              by simp [h4Of], ?_⟩
      intro rid hr
      simp only [Except.ok.injEq] at hr
      subst hr
      simp [h4Of, heapAfterAllocs]

theorem pyIdx_neg2 : pyIdx 2 (-2) = 0 := by decide

theorem pyIdx_neg1 : pyIdx 2 (-1) = 1 := by decide

theorem getElem?_append3 {α : Type} (l t : List α) (a b c : α) :
    ((l ++ [a, b, c]) ++ t)[l.length]? = some a ∧
    ((l ++ [a, b, c]) ++ t)[l.length + 1]? = some b ∧
    ((l ++ [a, b, c]) ++ t)[l.length + 2]? = some c := by
  refine ⟨?_, ?_, ?_⟩ <;>
  · rw [List.append_assoc, List.getElem?_append_right (by omega)]
    simp [Nat.add_sub_cancel_left]

/-- Claim C7: on every input rejected by the shape validation, `proesmans`
raises the validation error at the boundary: the heap is returned exactly as it
was — no frame extraction, normalization, smoothing or flow computation has
allocated or written anything — and no result index is produced. -/
theorem C7_error_at_boundary (gauss : List PyFloat → ℚ → List PyFloat)
    (adv : PArray → ℚ → ℚ → ℤ → PArray)
    (heap : List PArray) (inId : Nat) (lam num_iter : ℚ) (num_levels : ℤ)
    (filter_std : ℚ) (inp : PArray)
    (hin : heap[inId]? = some inp)
    (hbad : inp.shape.length ≠ 3 ∨ inp.shape.headD 0 ≠ 2) :
    proesmans gauss adv heap inId lam num_iter num_levels filter_std =
      (heap, Except.error (dimErrMsg inp.shape)) := by
  unfold proesmans
  simp only [hin]
  rw [if_pos hbad]

/-- Claim C7 witness at a concrete 2-dimensional input. -/
theorem C7_error_at_boundary_witness :
    proesmans (fun l _ => l) computeAdvectionField
      [{ shape := [4, 4], data := [] }] 0 50 100 6 0 =
      ([{ shape := [4, 4], data := [] }], Except.error (dimErrMsg [4, 4])) :=
  C7_error_at_boundary (fun l _ => l) computeAdvectionField
    [{ shape := [4, 4], data := [] }] 0 50 100 6 0 { shape := [4, 4], data := [] }
    rfl (by decide)

/-- Claim C2: `proesmans` returns the shape `ValueError` — whose message is the
source's concatenation carrying the received shape — precisely on the inputs
that are not 3-dimensional with leading dimension 2; valid shapes `(2, m, n)`
are exactly the ones passing the validation. -/
theorem C2_shape_validation (gauss : List PyFloat → ℚ → List PyFloat)
    (adv : PArray → ℚ → ℚ → ℤ → PArray)
    (heap : List PArray) (inId : Nat) (lam num_iter : ℚ) (num_levels : ℤ)
    (filter_std : ℚ) (inp : PArray)
    (hin : heap[inId]? = some inp) :
    (proesmans gauss adv heap inId lam num_iter num_levels filter_std =
        (heap, Except.error (dimErrMsg inp.shape)) ↔
      (inp.shape.length ≠ 3 ∨ inp.shape.headD 0 ≠ 2)) ∧
    dimErrMsg inp.shape = "input_images dimension mismatch.\n" ++ "input_images.shape: " ++
      shapeStr inp.shape ++ "\n(2, m, n) expected" ∧
    ((inp.shape.length = 3 ∧ inp.shape.headD 0 = 2) ↔ ∃ m n, inp.shape = [2, m, n]) := by
  refine ⟨?_, rfl, ?_⟩
  · unfold proesmans
    simp only [hin]
    by_cases hv : inp.shape.length ≠ 3 ∨ inp.shape.headD 0 ≠ 2
    · rw [if_pos hv]
      exact ⟨fun _ => hv, fun _ => rfl⟩
    · rw [if_neg hv]
      constructor
      · intro hEq
        exfalso
        obtain ⟨t, ht, _⟩ :=
          proesmansBody_split gauss adv heap inp lam num_iter num_levels filter_std
        have h1 : (proesmansBody gauss adv heap inp lam num_iter num_levels filter_std).1 =
            heap := by rw [hEq]
        rw [ht] at h1
        have h2 := congrArg List.length h1
        simp [heapAfterAllocs] at h2
      · intro h
        exact absurd h hv
  · constructor
    · rintro ⟨h3, h2⟩
      obtain ⟨a, b, c, hs⟩ := List.length_eq_three.mp h3
      rw [hs] at h2 ⊢
      simp only [List.headD_cons] at h2
      subst h2
      exact ⟨b, c, rfl⟩
    · rintro ⟨m, n, hs⟩
      rw [hs]
      exact ⟨rfl, rfl⟩

/-- Claim C2 witness at a concrete 2-dimensional input. -/
theorem C2_shape_validation_witness :
    (proesmans (fun l _ => l) computeAdvectionField [{ shape := [2, 2], data := [] }] 0
        50 100 6 0 =
        ([{ shape := [2, 2], data := [] }], Except.error (dimErrMsg [2, 2])) ↔
      (([2, 2] : List Nat).length ≠ 3 ∨ ([2, 2] : List Nat).headD 0 ≠ 2)) ∧
    dimErrMsg [2, 2] = "input_images dimension mismatch.\n" ++ "input_images.shape: " ++
      shapeStr [2, 2] ++ "\n(2, m, n) expected" ∧
    ((([2, 2] : List Nat).length = 3 ∧ ([2, 2] : List Nat).headD 0 = 2) ↔
      ∃ m n, ([2, 2] : List Nat) = [2, m, n]) :=
  C2_shape_validation (fun l _ => l) computeAdvectionField
    [{ shape := [2, 2], data := [] }] 0 50 100 6 0 { shape := [2, 2], data := [] } rfl

/-- Claim C5: `proesmans` operates only on copies: whatever the parameters and
whatever the external collaborators do, the caller's array cell is unchanged in
the final heap, and the returned array is never the caller's cell. -/
theorem C5_input_unchanged (gauss : List PyFloat → ℚ → List PyFloat)
    (adv : PArray → ℚ → ℚ → ℤ → PArray)
    (heap : List PArray) (inId : Nat) (lam num_iter : ℚ) (num_levels : ℤ)
    (filter_std : ℚ) (inp : PArray)
    (hin : heap[inId]? = some inp) :
    ((proesmans gauss adv heap inId lam num_iter num_levels filter_std).1)[inId]? =
      some inp ∧
    (proesmans gauss adv heap inId lam num_iter num_levels filter_std).2 ≠
      Except.ok inId := by
  have hlt : inId < heap.length := by
    rcases List.getElem?_eq_some_iff.mp hin with ⟨h, _⟩
    exact h
  unfold proesmans
  simp only [hin]
  by_cases hv : inp.shape.length ≠ 3 ∨ inp.shape.headD 0 ≠ 2
  · rw [if_pos hv]
    exact ⟨hin, by simp⟩
  · rw [if_neg hv]
    obtain ⟨t, ht, hok⟩ :=
      proesmansBody_split gauss adv heap inp lam num_iter num_levels filter_std
    constructor
    · rw [ht]
      unfold heapAfterAllocs
      rw [List.append_assoc, List.getElem?_append_left hlt]
      exact hin
    · intro h
      have := hok inId h
      omega

/-- Claim C5 witness at a concrete valid input. -/
theorem C5_input_unchanged_witness :
    ((proesmans (fun l _ => l) computeAdvectionField
        [{ shape := [2, 1, 1], data := [PyFloat.fin 0, PyFloat.fin 1] }] 0
        50 100 6 0).1)[0]? =
      some { shape := [2, 1, 1], data := [PyFloat.fin 0, PyFloat.fin 1] } ∧
    (proesmans (fun l _ => l) computeAdvectionField
        [{ shape := [2, 1, 1], data := [PyFloat.fin 0, PyFloat.fin 1] }] 0
        50 100 6 0).2 ≠ Except.ok 0 :=
  C5_input_unchanged (fun l _ => l) computeAdvectionField
    [{ shape := [2, 1, 1], data := [PyFloat.fin 0, PyFloat.fin 1] }] 0 50 100 6 0
    { shape := [2, 1, 1], data := [PyFloat.fin 0, PyFloat.fin 1] } rfl

/-- Claim C6: the two frames `proesmans` extracts with the Python indices `-2`
and `-1` are, on every input passing the validation (leading dimension exactly
2), exactly `input_images[0]` and `input_images[1]`: the copies allocated on
the heap and the stacked pair fed to the normalization are those two frames. -/
theorem C6_last_two_frames (gauss : List PyFloat → ℚ → List PyFloat)
    (adv : PArray → ℚ → ℚ → ℤ → PArray)
    (heap : List PArray) (inId : Nat) (lam num_iter : ℚ) (num_levels : ℤ)
    (filter_std : ℚ) (inp : PArray) (m n : Nat)
    (hin : heap[inId]? = some inp) (hsh : inp.shape = [2, m, n]) :
    pyIdx 2 (-2) = 0 ∧ pyIdx 2 (-1) = 1 ∧
    im1Data inp = frameData inp 0 ∧ im2Data inp = frameData inp 1 ∧
    ((proesmans gauss adv heap inId lam num_iter num_levels filter_std).1)[heap.length]? =
      some { shape := [m, n], data := frameData inp 0 } ∧
    ((proesmans gauss adv heap inId lam num_iter num_levels filter_std).1)[heap.length + 1]? =
      some { shape := [m, n], data := frameData inp 1 } ∧
    ((proesmans gauss adv heap inId lam num_iter num_levels filter_std).1)[heap.length + 2]? =
      some { shape := [2, m, n], data := frameData inp 0 ++ frameData inp 1 } := by
  have him1 : im1Data inp = frameData inp 0 := by
    unfold im1Data
    rw [hsh]
    simp only [List.headD_cons, pyIdx_neg2]
  have him2 : im2Data inp = frameData inp 1 := by
    unfold im2Data
    rw [hsh]
    simp only [List.headD_cons, pyIdx_neg1]
  have hv : ¬(inp.shape.length ≠ 3 ∨ inp.shape.headD 0 ≠ 2) := by
    rw [hsh]
    simp
  refine ⟨pyIdx_neg2, pyIdx_neg1, him1, him2, ?_, ?_, ?_⟩ <;>
  · unfold proesmans
    simp only [hin]
    rw [if_neg hv]
    obtain ⟨t, ht, _⟩ :=
      proesmansBody_split gauss adv heap inp lam num_iter num_levels filter_std
    rw [ht]
    unfold heapAfterAllocs
    obtain ⟨hc1, hc2, hc3⟩ := getElem?_append3 heap t
      { shape := inp.shape.tail, data := im1Data inp }
      { shape := inp.shape.tail, data := im2Data inp }
      { shape := 2 :: inp.shape.tail, data := im1Data inp ++ im2Data inp }
    simp only [him1, him2, hsh, List.tail_cons] at hc1 hc2 hc3 ⊢
    first
    | exact hc1
    | exact hc2
    | exact hc3

/-- Claim C6 witness at a concrete valid input. -/
theorem C6_last_two_frames_witness :
    pyIdx 2 (-2) = 0 ∧ pyIdx 2 (-1) = 1 ∧
    im1Data { shape := [2, 1, 1], data := [PyFloat.fin 0, PyFloat.fin 1] } =
      frameData { shape := [2, 1, 1], data := [PyFloat.fin 0, PyFloat.fin 1] } 0 ∧
    im2Data { shape := [2, 1, 1], data := [PyFloat.fin 0, PyFloat.fin 1] } =
      frameData { shape := [2, 1, 1], data := [PyFloat.fin 0, PyFloat.fin 1] } 1 ∧
    ((proesmans (fun l _ => l) computeAdvectionField
        [{ shape := [2, 1, 1], data := [PyFloat.fin 0, PyFloat.fin 1] }] 0
        50 100 6 0).1)[1]? =
      some { shape := [1, 1],
             data := frameData { shape := [2, 1, 1], data := [PyFloat.fin 0, PyFloat.fin 1] } 0 } ∧
    ((proesmans (fun l _ => l) computeAdvectionField
        [{ shape := [2, 1, 1], data := [PyFloat.fin 0, PyFloat.fin 1] }] 0
        50 100 6 0).1)[2]? =
      some { shape := [1, 1],
             data := frameData { shape := [2, 1, 1], data := [PyFloat.fin 0, PyFloat.fin 1] } 1 } ∧
    ((proesmans (fun l _ => l) computeAdvectionField
        [{ shape := [2, 1, 1], data := [PyFloat.fin 0, PyFloat.fin 1] }] 0
        50 100 6 0).1)[3]? =
      some { shape := [2, 1, 1],
             data := frameData { shape := [2, 1, 1], data := [PyFloat.fin 0, PyFloat.fin 1] } 0 ++
               frameData { shape := [2, 1, 1], data := [PyFloat.fin 0, PyFloat.fin 1] } 1 } :=
  C6_last_two_frames (fun l _ => l) computeAdvectionField
    [{ shape := [2, 1, 1], data := [PyFloat.fin 0, PyFloat.fin 1] }] 0 50 100 6 0
    { shape := [2, 1, 1], data := [PyFloat.fin 0, PyFloat.fin 1] } 1 1 rfl rfl

/-! ### Minimum/maximum folds and the joint rescaling -/

theorem foldl_min_le_init (l : List ℚ) (x : ℚ) : l.foldl min x ≤ x := by
  induction l generalizing x with
  | nil => exact le_refl x
  | cons a t ih => exact le_trans (ih (min x a)) (min_le_left x a)

theorem foldl_min_le_mem (l : List ℚ) (x v : ℚ) (hv : v ∈ l) : l.foldl min x ≤ v := by
  induction l generalizing x with
  | nil => cases hv
  | cons a t ih =>
    rcases List.mem_cons.mp hv with h | h
    · subst h
      exact le_trans (foldl_min_le_init t (min x v)) (min_le_right x v)
    · exact ih (min x a) h

theorem foldl_min_mem (l : List ℚ) (x : ℚ) : l.foldl min x ∈ x :: l := by
  induction l generalizing x with
  | nil => exact List.mem_singleton.mpr rfl
  | cons a t ih =>
    have h := ih (min x a)
    rcases List.mem_cons.mp h with h1 | h1
    · rcases min_choice x a with h2 | h2
      · exact List.mem_cons.mpr (Or.inl (h1.trans h2))
      · refine List.mem_cons.mpr (Or.inr ?_)
        exact List.mem_cons.mpr (Or.inl (h1.trans h2))
    · refine List.mem_cons.mpr (Or.inr ?_)
      exact List.mem_cons.mpr (Or.inr h1)

theorem foldl_max_init_le (l : List ℚ) (x : ℚ) : x ≤ l.foldl max x := by
  induction l generalizing x with
  | nil => exact le_refl x
  | cons a t ih => exact le_trans (le_max_left x a) (ih (max x a))

theorem foldl_max_mem_le (l : List ℚ) (x v : ℚ) (hv : v ∈ l) : v ≤ l.foldl max x := by
  induction l generalizing x with
  | nil => cases hv
  | cons a t ih =>
    rcases List.mem_cons.mp hv with h | h
    · subst h
      exact le_trans (le_max_right x v) (foldl_max_init_le t (max x v))
    · exact ih (max x a) h

theorem foldl_max_mem (l : List ℚ) (x : ℚ) : l.foldl max x ∈ x :: l := by
  induction l generalizing x with
  | nil => exact List.mem_singleton.mpr rfl
  | cons a t ih =>
    have h := ih (max x a)
    rcases List.mem_cons.mp h with h1 | h1
    · rcases max_choice x a with h2 | h2
      · exact List.mem_cons.mpr (Or.inl (h1.trans h2))
      · refine List.mem_cons.mpr (Or.inr ?_)
        exact List.mem_cons.mpr (Or.inl (h1.trans h2))
    · refine List.mem_cons.mpr (Or.inr ?_)
      exact List.mem_cons.mpr (Or.inr h1)

theorem foldl_pfMin_map_fin (l : List ℚ) (x : ℚ) :
    (l.map PyFloat.fin).foldl pfMin (PyFloat.fin x) = PyFloat.fin (l.foldl min x) := by
  induction l generalizing x with
  | nil => rfl
  | cons a t ih => simp only [List.map_cons, List.foldl_cons, pfMin, ih]

theorem foldl_pfMax_map_fin (l : List ℚ) (x : ℚ) :
    (l.map PyFloat.fin).foldl pfMax (PyFloat.fin x) = PyFloat.fin (l.foldl max x) := by
  induction l generalizing x with
  | nil => rfl
  | cons a t ih => simp only [List.map_cons, List.foldl_cons, pfMax, ih]

theorem npMinL_map_fin (l : List ℚ) (h : l ≠ []) :
    npMinL (l.map PyFloat.fin) = PyFloat.fin (listMinQ l) := by
  cases l with
  | nil => exact absurd rfl h
  | cons a t => exact foldl_pfMin_map_fin t a

theorem npMaxL_map_fin (l : List ℚ) (h : l ≠ []) :
    npMaxL (l.map PyFloat.fin) = PyFloat.fin (listMaxQ l) := by
  cases l with
  | nil => exact absurd rfl h
  | cons a t => exact foldl_pfMax_map_fin t a

theorem listMinQ_le (l : List ℚ) (v : ℚ) (hv : v ∈ l) : listMinQ l ≤ v := by
  cases l with
  | nil => cases hv
  | cons a t =>
    rcases List.mem_cons.mp hv with h | h
    · subst h
      exact foldl_min_le_init t v
    · exact foldl_min_le_mem t a v h

theorem le_listMaxQ (l : List ℚ) (v : ℚ) (hv : v ∈ l) : v ≤ listMaxQ l := by
  cases l with
  | nil => cases hv
  | cons a t =>
    rcases List.mem_cons.mp hv with h | h
    · subst h
      exact foldl_max_init_le t v
    · exact foldl_max_mem_le t a v h

theorem listMinQ_mem (l : List ℚ) (h : l ≠ []) : listMinQ l ∈ l := by
  cases l with
  | nil => exact absurd rfl h
  | cons a t => exact foldl_min_mem t a

theorem listMaxQ_mem (l : List ℚ) (h : l ≠ []) : listMaxQ l ∈ l := by
  cases l with
  | nil => exact absurd rfl h
  | cons a t => exact foldl_max_mem t a

theorem normPixel_fin (mn mx v : ℚ) (h : mx - mn ≠ 0) :
    normPixel (PyFloat.fin mn) (PyFloat.fin mx) (PyFloat.fin v) =
      PyFloat.fin ((v - mn) / (mx - mn) * 255) := by
  simp only [normPixel, pfSub, pfDiv, pfMul, if_neg h]

/-- Claim C3: on a valid pair whose global maximum strictly exceeds its global
minimum, the normalization of `proesmans` rescales both frames jointly by the
single minimum and maximum taken across the concatenation of both images:
every rescaled value is the finite rational `(v - min) / (max - min) * 255`,
that value lies in `[0, 255]`, the global minimum (which is attained by some
pixel) maps to `0` and the global maximum (also attained) maps to `255`. -/
theorem C3_joint_rescale (l1 l2 : List ℚ) (v : ℚ) (hne : l1 ++ l2 ≠ [])
    (hv : v ∈ l1 ++ l2)
    (hlt : listMinQ (l1 ++ l2) < listMaxQ (l1 ++ l2)) :
    normalizeFrames ((l1 ++ l2).map PyFloat.fin) =
      Except.ok ((l1 ++ l2).map (fun w =>
        PyFloat.fin ((w - listMinQ (l1 ++ l2)) /
          (listMaxQ (l1 ++ l2) - listMinQ (l1 ++ l2)) * 255))) ∧
    listMinQ (l1 ++ l2) ∈ l1 ++ l2 ∧ listMaxQ (l1 ++ l2) ∈ l1 ++ l2 ∧
    0 ≤ (v - listMinQ (l1 ++ l2)) / (listMaxQ (l1 ++ l2) - listMinQ (l1 ++ l2)) * 255 ∧
    (v - listMinQ (l1 ++ l2)) / (listMaxQ (l1 ++ l2) - listMinQ (l1 ++ l2)) * 255 ≤ 255 ∧
    (listMinQ (l1 ++ l2) - listMinQ (l1 ++ l2)) /
        (listMaxQ (l1 ++ l2) - listMinQ (l1 ++ l2)) * 255 = 0 ∧
    (listMaxQ (l1 ++ l2) - listMinQ (l1 ++ l2)) /
        (listMaxQ (l1 ++ l2) - listMinQ (l1 ++ l2)) * 255 = 255 := by
  have hpos : 0 < listMaxQ (l1 ++ l2) - listMinQ (l1 ++ l2) := sub_pos.mpr hlt
  have hd : listMaxQ (l1 ++ l2) - listMinQ (l1 ++ l2) ≠ 0 := ne_of_gt hpos
  refine ⟨?_, listMinQ_mem _ hne, listMaxQ_mem _ hne, ?_, ?_, ?_, ?_⟩
  · unfold normalizeFrames
    rw [if_neg (by
      rw [List.isEmpty_eq_false.mpr (fun hcon => hne (List.map_eq_nil_iff.mp hcon))]
      exact Bool.false_ne_true)]
    rw [npMinL_map_fin _ hne, npMaxL_map_fin _ hne, List.map_map]
    refine congrArg Except.ok ?_
    refine List.map_congr_left ?_
    intro w hw
    exact normPixel_fin _ _ w hd
  · have h1 : 0 ≤ v - listMinQ (l1 ++ l2) := sub_nonneg.mpr (listMinQ_le _ v hv)
    exact mul_nonneg (div_nonneg h1 (le_of_lt hpos)) (by norm_num)
  · have h2 : (v - listMinQ (l1 ++ l2)) / (listMaxQ (l1 ++ l2) - listMinQ (l1 ++ l2)) ≤ 1 :=
      (div_le_one hpos).mpr (sub_le_sub_right (le_listMaxQ _ v hv) _)
    calc (v - listMinQ (l1 ++ l2)) / (listMaxQ (l1 ++ l2) - listMinQ (l1 ++ l2)) * 255 ≤
        1 * 255 := mul_le_mul_of_nonneg_right h2 (by norm_num)
      _ = 255 := one_mul _
  · rw [sub_self, zero_div, zero_mul]
  · rw [div_self hd, one_mul]

/-- Claim C3 witness at the concrete pair `[0]`, `[2]` with pixel `2`. -/
theorem C3_joint_rescale_witness :
    normalizeFrames (([0] ++ [2] : List ℚ).map PyFloat.fin) =
      Except.ok (([0] ++ [2] : List ℚ).map (fun w =>
        PyFloat.fin ((w - listMinQ ([0] ++ [2])) /
          (listMaxQ ([0] ++ [2]) - listMinQ ([0] ++ [2])) * 255))) ∧
    listMinQ ([0] ++ [2]) ∈ ([0] ++ [2] : List ℚ) ∧
    listMaxQ ([0] ++ [2]) ∈ ([0] ++ [2] : List ℚ) ∧
    0 ≤ ((2 : ℚ) - listMinQ ([0] ++ [2])) /
        (listMaxQ ([0] ++ [2]) - listMinQ ([0] ++ [2])) * 255 ∧
    ((2 : ℚ) - listMinQ ([0] ++ [2])) /
        (listMaxQ ([0] ++ [2]) - listMinQ ([0] ++ [2])) * 255 ≤ 255 ∧
    (listMinQ ([0] ++ [2]) - listMinQ ([0] ++ [2])) /
        (listMaxQ ([0] ++ [2]) - listMinQ ([0] ++ [2])) * 255 = 0 ∧
    (listMaxQ ([0] ++ [2]) - listMinQ ([0] ++ [2])) /
        (listMaxQ ([0] ++ [2]) - listMinQ ([0] ++ [2])) * 255 = 255 :=
  C3_joint_rescale [0] [2] 2 (by decide) (by decide) (by decide)

/-- Claim C1 (code behaviour at the degenerate input): on a constant valid
input — global maximum equal to global minimum — the normalization of
`proesmans` computes `(0) / (0) * 255`, i.e. NaN, at every pixel: the call
raises no error and the normalized image is NaN-valued, not zero-valued. -/
theorem C1_constant_input_nan :
    normalizeFrames [PyFloat.fin 5, PyFloat.fin 5] =
      Except.ok [PyFloat.nan, PyFloat.nan] ∧
    (proesmans (fun l _ => l) computeAdvectionField
        [{ shape := [2, 1, 1], data := [PyFloat.fin 5, PyFloat.fin 5] }] 0
        50 100 6 0).2 = Except.ok 5 ∧
    ((proesmans (fun l _ => l) computeAdvectionField
        [{ shape := [2, 1, 1], data := [PyFloat.fin 5, PyFloat.fin 5] }] 0
        50 100 6 0).1)[4]? =
      some { shape := [2, 1, 1], data := [PyFloat.nan, PyFloat.nan] } ∧
    PyFloat.nan ≠ PyFloat.fin 0 := by
  refine ⟨?_, ?_, ?_, by decide⟩
  · norm_num [normalizeFrames, normPixel, npMinL, npMaxL, pfMin, pfMax, pfSub, pfDiv, pfMul]
  · norm_num [proesmans, proesmansBody, heapAfterAllocs, h4Of, normArrOf, im1Data, im2Data,
      frameData, pyIdx, computeAdvectionField, normalizeFrames, normPixel, npMinL, npMaxL,
      pfMin, pfMax, pfSub, pfDiv, pfMul]
  · norm_num [proesmans, proesmansBody, heapAfterAllocs, h4Of, normArrOf, im1Data, im2Data,
      frameData, pyIdx, computeAdvectionField, normalizeFrames, normPixel, npMinL, npMaxL,
      pfMin, pfMax, pfSub, pfDiv, pfMul]

/-- Claim C4: with `filter_std <= 0` the smoothing step is skipped entirely:
the run of `proesmans` is bit-identical, heap and result, to the run of the
pipeline from which the smoothing step has been removed, whatever the Gaussian
collaborator is. -/
theorem C4_pass_through (gauss : List PyFloat → ℚ → List PyFloat)
    (adv : PArray → ℚ → ℚ → ℤ → PArray)
    (heap : List PArray) (inId : Nat) (lam num_iter : ℚ) (num_levels : ℤ)
    (filter_std : ℚ) (hfs : filter_std ≤ 0) :
    proesmans gauss adv heap inId lam num_iter num_levels filter_std =
      proesmansNoSmooth adv heap inId lam num_iter num_levels := by
  unfold proesmans proesmansNoSmooth
  cases heap[inId]? with
  | none => rfl
  | some inp =>
    by_cases hv : inp.shape.length ≠ 3 ∨ inp.shape.headD 0 ≠ 2
    · simp only [if_pos hv]
    · simp only [if_neg hv]
      unfold proesmansBody proesmansBodyNoSmooth
      cases normalizeFrames (im1Data inp ++ im2Data inp) with
      | error e => rfl
      | ok nd => exact if_neg (not_lt.mpr hfs)

/-- Claim C4 witness with `filter_std = 0` at a concrete input. -/
theorem C4_pass_through_witness :
    proesmans (fun l _ => l.map (fun _ => PyFloat.fin 7)) computeAdvectionField
      [{ shape := [2, 1, 1], data := [PyFloat.fin 0, PyFloat.fin 1] }] 0 50 100 6 0 =
      proesmansNoSmooth computeAdvectionField
        [{ shape := [2, 1, 1], data := [PyFloat.fin 0, PyFloat.fin 1] }] 0 50 100 6 :=
  C4_pass_through (fun l _ => l.map (fun _ => PyFloat.fin 7)) computeAdvectionField
    [{ shape := [2, 1, 1], data := [PyFloat.fin 0, PyFloat.fin 1] }] 0 50 100 6 0
    (by decide)

theorem frameData_length (a : PArray) (k : Nat)
    (h : k * a.shape.tail.prod + a.shape.tail.prod ≤ a.data.length) :
    (frameData a k).length = a.shape.tail.prod := by
  simp only [frameData, List.length_take, List.length_drop]
  omega

/-- Claim C8: on every valid, well-formed, nonempty input of shape `(2, m, n)`
and for every choice of the parameters, `proesmans` returns a dense motion
field of shape `(2, m, n)` — two channels over the same spatial dimensions as
the input (the Gaussian collaborator is assumed shape-preserving, as
`scipy.ndimage.gaussian_filter` is documented to be). -/
theorem C8_output_shape (gauss : List PyFloat → ℚ → List PyFloat)
    (heap : List PArray) (inId : Nat) (lam num_iter : ℚ) (num_levels : ℤ)
    (filter_std : ℚ) (inp : PArray) (m n : Nat)
    (hin : heap[inId]? = some inp) (hsh : inp.shape = [2, m, n])
    (hdata : inp.data.length = 2 * (m * n)) (hmn : 0 < m * n)
    (hg : ∀ l s, (gauss l s).length = l.length) :
    ∃ h2 rid out,
      proesmans gauss computeAdvectionField heap inId lam num_iter num_levels filter_std =
        (h2, Except.ok rid) ∧ h2[rid]? = some out ∧ out.shape = [2, m, n] := by
  have hp : inp.shape.tail.prod = m * n := by
    rw [hsh]
    simp
  have him1 : im1Data inp = frameData inp 0 := by
    unfold im1Data
    rw [hsh]
    simp only [List.headD_cons, pyIdx_neg2]
  have him2 : im2Data inp = frameData inp 1 := by
    unfold im2Data
    rw [hsh]
    simp only [List.headD_cons, pyIdx_neg1]
  have hl1 : (im1Data inp).length = m * n := by
    rw [him1]
    rw [frameData_length inp 0 (by rw [hp, hdata]; omega)]
    exact hp
  have hl2 : (im2Data inp).length = m * n := by
    rw [him2]
    rw [frameData_length inp 1 (by rw [hp, hdata]; omega)]
    exact hp
  have hv : ¬(inp.shape.length ≠ 3 ∨ inp.shape.headD 0 ≠ 2) := by
    rw [hsh]
    simp
  have hd : (im1Data inp ++ im2Data inp).isEmpty = false := by
    rw [List.isEmpty_eq_false]
    intro hcon
    have hlen := congrArg List.length hcon
    simp only [List.length_append, hl1, hl2, List.length_nil] at hlen
    omega
  have hnf : normalizeFrames (im1Data inp ++ im2Data inp) =
      Except.ok ((im1Data inp ++ im2Data inp).map
        (normPixel (npMinL (im1Data inp ++ im2Data inp))
          (npMaxL (im1Data inp ++ im2Data inp)))) := by
    unfold normalizeFrames
    rw [hd]
    rfl
  have hndlen : ((im1Data inp ++ im2Data inp).map
      (normPixel (npMinL (im1Data inp ++ im2Data inp))
        (npMaxL (im1Data inp ++ im2Data inp)))).length = 2 * (m * n) := by
    simp only [List.length_map, List.length_append, hl1, hl2]
    omega
  unfold proesmans
  simp only [hin]
  rw [if_neg hv]
  unfold proesmansBody
  simp only [hnf]
  set nd := (im1Data inp ++ im2Data inp).map
    (normPixel (npMinL (im1Data inp ++ im2Data inp))
      (npMaxL (im1Data inp ++ im2Data inp))) with hnd
  have hfd0 : (frameData (normArrOf inp nd) 0).length = m * n := by
    simp only [frameData, normArrOf, List.tail_cons, List.length_take, List.length_drop,
      hp, hndlen]
    omega
  by_cases hfs : 0 < filter_std
  · simp only [if_pos hfs]
    have h0 : ¬((gauss (frameData (normArrOf inp nd) 0) filter_std).length ≠
        inp.shape.tail.prod) := by
      rw [hg, hfd0, hp]
      exact fun hc => hc rfl
    simp only [if_neg h0]
    have hfd1 : (frameData (setFrame (normArrOf inp nd) 0
        (gauss (frameData (normArrOf inp nd) 0) filter_std)) 1).length = m * n := by
      simp only [frameData, setFrame, normArrOf, List.tail_cons, List.length_take,
        List.length_drop, List.length_append, hp, hndlen, hg, hfd0]
      omega
    have h1 : ¬((gauss (frameData (setFrame (normArrOf inp nd) 0
        (gauss (frameData (normArrOf inp nd) 0) filter_std)) 1) filter_std).length ≠
        inp.shape.tail.prod) := by
      rw [hg, hfd1, hp]
      exact fun hc => hc rfl
    simp only [if_neg h1]
    refine ⟨_, _, _, rfl, List.getElem?_concat_length _ _, ?_⟩
    simp only [computeAdvectionField, setFrame, normArrOf, hsh, List.tail_cons]
  · simp only [if_neg hfs]
    refine ⟨_, _, _, rfl, List.getElem?_concat_length _ _, ?_⟩
    simp only [computeAdvectionField, normArrOf, hsh, List.tail_cons]

/-- Claim C8 witness at a concrete valid input with smoothing enabled. -/
theorem C8_output_shape_witness :
    ∃ h2 rid out,
      proesmans (fun l _ => l) computeAdvectionField
        [{ shape := [2, 1, 1], data := [PyFloat.fin 0, PyFloat.fin 1] }] 0
        50 100 6 1 = (h2, Except.ok rid) ∧ h2[rid]? = some out ∧ out.shape = [2, 1, 1] :=
  C8_output_shape (fun l _ => l)
    [{ shape := [2, 1, 1], data := [PyFloat.fin 0, PyFloat.fin 1] }] 0 50 100 6 1
    { shape := [2, 1, 1], data := [PyFloat.fin 0, PyFloat.fin 1] } 1 1 rfl rfl rfl
    (by decide) (fun l s => rfl)

/-- Faithfulness of the relational pipeline: under the graph relations of
functional collaborators, `relBody` holds of the functional run. -/
theorem relBody_of_fun (gauss : List PyFloat → ℚ → List PyFloat)
    (adv : PArray → ℚ → ℚ → ℤ → PArray)
    (heap : List PArray) (inp : PArray) (lam num_iter : ℚ) (num_levels : ℤ)
    (filter_std : ℚ) :
    relBody (fun x s y => gauss x s = y) (fun a b c d y => adv a b c d = y)
      heap inp lam num_iter num_levels filter_std
      (proesmansBody gauss adv heap inp lam num_iter num_levels filter_std) := by
  unfold relBody proesmansBody
  split
  · next e heqn => simp only [heqn]
  · next nd heqn =>
    simp only [heqn]
    by_cases hfs : 0 < filter_std
    · simp only [if_pos hfs]
      refine ⟨_, rfl, ?_⟩
      by_cases h0 : (gauss (frameData (normArrOf inp nd) 0) filter_std).length ≠
          inp.shape.tail.prod
      · simp only [if_pos h0]
      · simp only [if_neg h0]
        refine ⟨_, rfl, ?_⟩
        by_cases h1 : (gauss (frameData (setFrame (normArrOf inp nd) 0
            (gauss (frameData (normArrOf inp nd) 0) filter_std)) 1) filter_std).length ≠
            inp.shape.tail.prod
        · simp only [if_pos h1]
        · simp only [if_neg h1]
          exact ⟨_, rfl, rfl⟩
    · simp only [if_neg hfs]
      exact ⟨_, rfl, rfl⟩

/-- Faithfulness of the relational wrapper over the functional one. -/
theorem proesmansRel_of_fun (gauss : List PyFloat → ℚ → List PyFloat)
    (adv : PArray → ℚ → ℚ → ℤ → PArray)
    (heap : List PArray) (inId : Nat) (lam num_iter : ℚ) (num_levels : ℤ)
    (filter_std : ℚ) :
    proesmansRel (fun x s y => gauss x s = y) (fun a b c d y => adv a b c d = y)
      heap inId lam num_iter num_levels filter_std
      (proesmans gauss adv heap inId lam num_iter num_levels filter_std) := by
  unfold proesmansRel proesmans
  split
  · next heq => simp only [heq]
  · next inp heq =>
    simp only [heq]
    by_cases hv : inp.shape.length ≠ 3 ∨ inp.shape.headD 0 ≠ 2
    · simp only [if_pos hv]
    · simp only [if_neg hv]
      exact relBody_of_fun gauss adv heap inp lam num_iter num_levels filter_std

/-- Claim C9: the pipeline is deterministic.  With the two external
collaborators modelled as arbitrary relations, if both are deterministic
(single-valued), then any two results of the relational pipeline
`proesmansRel` on the same input and parameters are identical. -/
theorem C9_deterministic (G : List PyFloat → ℚ → List PyFloat → Prop)
    (A : PArray → ℚ → ℚ → ℤ → PArray → Prop)
    (hG : ∀ x s y1 y2, G x s y1 → G x s y2 → y1 = y2)
    (hA : ∀ a b c d y1 y2, A a b c d y1 → A a b c d y2 → y1 = y2)
    (heap : List PArray) (inId : Nat) (lam num_iter : ℚ) (num_levels : ℤ)
    (filter_std : ℚ) (r1 r2 : List PArray × Except String Nat)
    (h1 : proesmansRel G A heap inId lam num_iter num_levels filter_std r1)
    (h2 : proesmansRel G A heap inId lam num_iter num_levels filter_std r2) :
    r1 = r2 := by
  unfold proesmansRel at h1 h2
  split at h1
  · next heq =>
    simp only [heq] at h2
    rw [h1, h2]
  · next inp heq =>
    simp only [heq] at h2
    by_cases hv : inp.shape.length ≠ 3 ∨ inp.shape.headD 0 ≠ 2
    · rw [if_pos hv] at h1 h2
      rw [h1, h2]
    · rw [if_neg hv] at h1 h2
      unfold relBody at h1 h2
      split at h1
      · next e heqn =>
        simp only [heqn] at h2
        rw [h1, h2]
      · next nd heqn =>
        simp only [heqn] at h2
        by_cases hfs : 0 < filter_std
        · rw [if_pos hfs] at h1 h2
          obtain ⟨g0, hg0, h1b⟩ := h1
          obtain ⟨g0b, hg0b, h2b⟩ := h2
          obtain rfl := hG _ _ _ _ hg0 hg0b
          by_cases hb0 : g0.length ≠ inp.shape.tail.prod
          · rw [if_pos hb0] at h1b h2b
            rw [h1b, h2b]
          · rw [if_neg hb0] at h1b h2b
            obtain ⟨g1, hg1, h1c⟩ := h1b
            obtain ⟨g1b, hg1b, h2c⟩ := h2b
            obtain rfl := hG _ _ _ _ hg1 hg1b
            by_cases hb1 : g1.length ≠ inp.shape.tail.prod
            · rw [if_pos hb1] at h1c h2c
              rw [h1c, h2c]
            · rw [if_neg hb1] at h1c h2c
              obtain ⟨o1, ho1, h1d⟩ := h1c
              obtain ⟨o2, ho2, h2d⟩ := h2c
              obtain rfl := hA _ _ _ _ _ _ ho1 ho2
              rw [h1d, h2d]
        · rw [if_neg hfs] at h1 h2
          obtain ⟨o1, ho1, h1b⟩ := h1
          obtain ⟨o2, ho2, h2b⟩ := h2
          obtain rfl := hA _ _ _ _ _ _ ho1 ho2
          rw [h1b, h2b]

/-- Claim C9 witness: two relational runs with concrete deterministic
collaborators on a concrete input coincide. -/
theorem C9_deterministic_witness :
    proesmans (fun l _ => l) computeAdvectionField
      [{ shape := [2, 1, 1], data := [PyFloat.fin 0, PyFloat.fin 1] }] 0 50 100 6 0 =
    proesmans (fun l _ => l) computeAdvectionField
      [{ shape := [2, 1, 1], data := [PyFloat.fin 0, PyFloat.fin 1] }] 0 50 100 6 0 :=
  C9_deterministic
    (fun x s y => (fun (l : List PyFloat) (_ : ℚ) => l) x s = y)
    (fun a b c d y => computeAdvectionField a b c d = y)
    (fun _ _ _ _ ha hb => ha.symm.trans hb)
    (fun _ _ _ _ _ _ ha hb => ha.symm.trans hb)
    [{ shape := [2, 1, 1], data := [PyFloat.fin 0, PyFloat.fin 1] }] 0 50 100 6 0 _ _
    (proesmansRel_of_fun (fun l _ => l) computeAdvectionField
      [{ shape := [2, 1, 1], data := [PyFloat.fin 0, PyFloat.fin 1] }] 0 50 100 6 0)
    (proesmansRel_of_fun (fun l _ => l) computeAdvectionField
      [{ shape := [2, 1, 1], data := [PyFloat.fin 0, PyFloat.fin 1] }] 0 50 100 6 0)

/-- Claim C10: `smart_assert` with tolerance `None` passes exactly when the
values compare equal under Python `==` (NaN unequal to everything); with a
non-negative tolerance `t` it passes on finite values exactly when the
absolute difference is within the maximum of the relative bound `t * |expected|`
and the absolute bound `t`, and a NaN expectation accepts exactly a NaN actual
(`nan_ok=True`). -/
theorem C10_smart_assert (a e : PyFloat) (qa qe t : ℚ) (ht : 0 ≤ t) :
    (smart_assert a e none = Except.ok true ↔ pyEq a e = true) ∧
    smart_assert PyFloat.nan PyFloat.nan (some t) = Except.ok true ∧
    (smart_assert a PyFloat.nan (some t) = Except.ok true ↔ a = PyFloat.nan) ∧
    (smart_assert (PyFloat.fin qa) (PyFloat.fin qe) (some t) = Except.ok true ↔
      |qe - qa| ≤ max (t * |qe|) t) := by
  have ht2 : ¬t < 0 := not_lt.mpr ht
  refine ⟨?_, ?_, ?_, ?_⟩
  · simp [smart_assert]
  · rfl
  · cases a with
    | nan => simp [smart_assert, approxScalarEq, pyEq]
    | fin q => simp [smart_assert, approxScalarEq, pyEq]
    | inf b => simp [smart_assert, approxScalarEq, pyEq]
  · by_cases hq : qa = qe
    · subst hq
      have hl : smart_assert (PyFloat.fin qa) (PyFloat.fin qa) (some t) = Except.ok true := by
        simp [smart_assert, approxScalarEq, pyEq]
      rw [hl]
      simp only [true_iff, sub_self, abs_zero]
      exact le_trans ht (le_max_right _ _)
    · have hne : pyEq (PyFloat.fin qa) (PyFloat.fin qe) = false := by
        simp [pyEq, hq]
      simp [smart_assert, approxScalarEq, approxTolerance, hne, ht2]

/-- Claim C10 witness at concrete scalars and tolerance `2`. -/
theorem C10_smart_assert_witness :
    (smart_assert (PyFloat.fin 1) (PyFloat.fin 1) none = Except.ok true ↔
      pyEq (PyFloat.fin 1) (PyFloat.fin 1) = true) ∧
    smart_assert PyFloat.nan PyFloat.nan (some 2) = Except.ok true ∧
    (smart_assert (PyFloat.fin 1) PyFloat.nan (some 2) = Except.ok true ↔
      PyFloat.fin 1 = PyFloat.nan) ∧
    (smart_assert (PyFloat.fin 1) (PyFloat.fin 3) (some 2) = Except.ok true ↔
      |(3 : ℚ) - 1| ≤ max (2 * |(3 : ℚ)|) 2) :=
  C10_smart_assert (PyFloat.fin 1) (PyFloat.fin 1) 1 3 2 (by decide)
